import Mathlib

/-!
Shallow embedding of the JobAgent background aggregation pipeline
(`scrapeAllJobs` and its helpers in the background service worker, plus the
shared utility functions `scoreJob` and `extractSmartKeywords`).

Conventions of the embedding:

* Timestamps are integers (milliseconds since the epoch, as returned by
  `Date.now()` / `Date.prototype.getTime()`).  A date-valued field that is
  `null` in the source is `Option.none`; a `first_seen_at` string that is
  missing or does not parse (so that `new Date(x).getTime()` is `NaN`) is
  also `Option.none`, and the embedding of every comparison against such a
  value follows the JS semantics that any `<`/`>` comparison with `NaN` is
  false.
* Network effects are injected as data: each configured board (Greenhouse
  and Lever alike, in configuration order) contributes one
  `Except String (List Job)` — `.ok` with the normalized fetched jobs, or
  `.error` when the fetch threw.  The OpenAI calls are likewise injected as
  their observable outcomes; re-rank index arrays carry exact rationals
  (every JS double is a binary rational), and shortlist entries are
  `Option Job` with `none` for JS `undefined`.
* `JSON.stringify(allJobs).length` (a host primitive) is injected as an
  abstract size estimate `List Job → Nat`.
* `chrome.storage.local` is modelled as an explicit `Store` value threaded
  through the pipeline.
* JavaScript's stable `Array.prototype.sort` with a consistent comparator
  is modelled by stable insertion sort with the preorder induced by the
  comparator.
-/

namespace JobAgent

/-- JS `lowerText.includes(keyword)`: substring containment on strings,
modelled as infix containment of the character lists. -/
def strIncludes (s pat : String) : Bool :=
  decide (pat.toList <:+: s.toList)

/-- JS `String.prototype.toLowerCase()`, modelled character-wise. -/
def jsToLower (s : String) : String :=
  ⟨s.data.map Char.toLower⟩

/-- JS `String.prototype.trim()`: strip leading and trailing whitespace. -/
def jsTrim (s : String) : String :=
  ⟨((s.data.dropWhile Char.isWhitespace).reverse.dropWhile Char.isWhitespace).reverse⟩

/-- JS `String.prototype.slice(0, n)`. -/
def jsTake (s : String) (n : Nat) : String :=
  ⟨s.data.take n⟩

/-- The canonical Job record produced by the fetchers (`fetchGreenhouseJobs`
/ `fetchLeverJobs`) and persisted in the `jobs` collection. -/
structure Job where
  id : String
  source : String
  company : String
  title : String
  location : String
  url : String
  /-- `posted_at`: `none` models JS `null`. -/
  posted_at : Option Int
  description : String
  /-- `first_seen_at` as a parsed timestamp; `none` models a missing or
  unparseable value (JS `NaN`). -/
  first_seen_at : Option Int
  score : Nat
deriving Repr, DecidableEq

/-- The persisted store keys touched by `scrapeAllJobs`. -/
structure Store where
  jobs : List Job
  /-- The persisted shortlist.  An entry is `some job`, or `none` for JS
  `undefined`, which the AI-ranked path stores when the model returns a
  fractional in-range index (see `aiRankTop5`). -/
  topJobs : List (Option Job)
  jobsLastUpdated : Option Int
  jobsLastError : Option String
deriving Repr, DecidableEq

/-- The injected outcome of one run's external interactions. -/
structure Env where
  /-- One entry per configured board (Greenhouse boards then Lever boards,
  in configuration order): the fetched job list, or the thrown error. -/
  boards : List (Except String (List Job))
  /-- `Date.now()` at run start. -/
  now : Int
  /-- The keyword list returned by `getCvKeywords()`. -/
  keywords : List String
  /-- `JSON.stringify(allJobs).length` for the capped job list. -/
  sizeEstimate : List Job → Nat
  /-- The AI rank interaction: `none` when no `apiKey`/`cvLink` is
  configured (no attempt is made); `some (.error e)` when the attempt threw
  (CV fetch failure, HTTP failure, JSON parse failure, or a non-array
  result); `some (.ok idxs)` when an array was returned.  An array element
  is `some q` for a finite number with exact rational value `q` (every JS
  double is a binary rational, and a fractional value is a possible, and
  observable, input), and `none` for an element the index filter can never
  accept: a non-number value (fails `typeof i === 'number'`), or `NaN` /
  an infinity (pass `typeof` but always fail the range comparison). -/
  aiAttempt : Option (Except String (List (Option Rat)))
  /-- A thrown exception outside all per-call guarded boundaries (for
  example a storage failure), caught only by the outermost catch of
  `scrapeAllJobs`; `none` when no such exception occurs. -/
  unguardedFailure : Option String

-- ── Constants (background worker) ────────────────────────────────────────────

def MAX_JOB_AGE_DAYS : Int := 30
def MAX_JOBS : Nat := 10000
def STORAGE_WARN_BYTES : Nat := 8 * 1024 * 1024
def CV_CACHE_HOURS : Int := 24

-- ── scoreJob (utils) ─────────────────────────────────────────────────────────

/-- `scoreJob(jobText, keywords)` from the shared utils.  The keyword set is
given as its iteration list (a JS `Set` iterates in insertion order and
holds distinct elements).  `Math.round((matched / keywords.size) * 100)` is
embedded as exact rational rounding half-up:
`⌊(100·matched + size/2) / size⌋ = (200·matched + size) / (2·size)`. -/
def scoreJob (jobText : String) (keywords : List String) : Nat × Nat :=
  if keywords.length = 0 then (0, 0)
  else
    let lowerText := jsToLower jobText
    let matched := (keywords.filter (fun k => strIncludes lowerText k)).length
    ((200 * matched + keywords.length) / (2 * keywords.length), matched)

-- ── extractSmartKeywords (utils) ─────────────────────────────────────────────

/-- The fixed `techTerms` vocabulary of `extractSmartKeywords`. -/
def techTerms : List String :=
  ["python", "javascript", "typescript", "react", "vue", "angular", "node",
   "nodejs", "java", "c#", "c++", "golang", "rust", "swift", "kotlin",
   "ruby", "php", "scala", "sql", "nosql", "mongodb", "postgres",
   "postgresql", "mysql", "redis", "elasticsearch", "kafka",
   "aws", "azure", "gcp", "docker", "kubernetes", "terraform",
   "ai", "ml", "machine learning", "deep learning", "nlp", "llm",
   "data", "analytics", "api", "rest", "graphql", "grpc",
   "devops", "ci/cd", "git", "linux",
   "html", "css", "sass", "tailwind",
   "spring", "django", "flask", "fastapi", "express", "rails",
   "pytorch", "tensorflow", "pandas", "numpy", "spark",
   "firebase", "supabase", "vercel", "netlify",
   "agile", "scrum", "kanban",
   "frontend", "backend", "fullstack", "full-stack", "full stack",
   "mobile", "ios", "android", "react native", "flutter",
   "cloud", "microservices", "distributed", "scalable",
   "security", "encryption", "oauth", "saml",
   "product", "design", "ux", "figma",
   "fintech", "healthtech", "edtech", "saas", "b2b", "b2c",
   "startup", "enterprise"]

/-- The fixed `roleTerms` vocabulary of `extractSmartKeywords`. -/
def roleTerms : List String :=
  ["engineer", "developer", "architect", "manager", "lead", "senior",
   "staff", "principal", "director", "analyst", "scientist", "consultant",
   "intern", "junior", "mid-level"]

/-- `extractSmartKeywords(text)`: lower-case the text and collect every
vocabulary term contained in it.  The source accumulates matches into a JS
`Set` in vocabulary order; since the combined vocabulary holds no
duplicates (`extract_vocab_nodup` below), `Array.from` of that set is the
filtered vocabulary list. -/
def extractSmartKeywords (text : String) : List String :=
  let lowerText := jsToLower text
  (techTerms ++ roleTerms).filter (fun t => strIncludes lowerText t)

-- ── aiExtractKeywords / getCvKeywords (background worker) ────────────────────

/-- `aiExtractKeywords(cvText, apiKey, model)`, as a function of the
observable outcome of the OpenAI call: `.error` for an HTTP failure, a JSON
parse failure or a `keywords` field that is not an array; `.ok kws` for a
returned array.  An empty array throws `AI returned no keywords`; otherwise
the keywords are lower-cased, trimmed and the empty ones dropped. -/
def aiExtractKeywords (response : Except String (List String)) :
    Except String (List String) :=
  match response with
  | .error e => .error e
  | .ok kws =>
      if kws.length = 0 then .error "AI returned no keywords"
      else .ok ((kws.map (fun k => jsTrim (jsToLower k))).filter (fun k => k.length > 0))

/-- The inputs read (and the injected external outcomes) of
`getCvKeywords()`. -/
structure CvEnv where
  /-- `data.cvLink`; `none` models a falsy value. -/
  cvLink : Option String
  /-- `data.cvKeywords`; `none` models a falsy value. -/
  cvKeywordsCache : Option (List String)
  /-- `data.cvKeywordsUpdatedAt`, parsed; `none` models a falsy value. -/
  cvKeywordsUpdatedAt : Option Int
  /-- `data.apiKey`; `none` models a falsy value. -/
  apiKey : Option String
  /-- `Date.now()`. -/
  now : Int
  /-- Outcome of `fetchGoogleDocTextBg(data.cvLink)`. -/
  docFetch : Except String String
  /-- Outcome of the OpenAI keyword call, as in `aiExtractKeywords`. -/
  aiResponse : Except String (List String)

/-- The cache-miss path of `getCvKeywords()`: fetch the CV text, extract
keywords by AI when an API key is configured (falling back to
`extractSmartKeywords` when the AI call fails), otherwise by pattern
matching; on a CV fetch failure return the cached keywords or `[]`. -/
def getCvKeywordsFresh (env : CvEnv) : List String :=
  match env.cvLink with
  | none => []
  | some _ =>
      match env.docFetch with
      | .error _ => env.cvKeywordsCache.getD []
      | .ok cvText =>
          match env.apiKey with
          | some _ =>
              match aiExtractKeywords env.aiResponse with
              | .ok kws => kws
              | .error _ => extractSmartKeywords cvText
          | none => extractSmartKeywords cvText

/-- `getCvKeywords()`: return the cached keyword list while its age is
below the TTL, otherwise re-extract. -/
def getCvKeywords (env : CvEnv) : List String :=
  match env.cvKeywordsCache, env.cvKeywordsUpdatedAt with
  | some kws, some t =>
      if env.now - t < CV_CACHE_HOURS * 3600 * 1000 then kws
      else getCvKeywordsFresh env
  | _, _ => getCvKeywordsFresh env

-- ── aiRankTop5 (background worker) ───────────────────────────────────────────

/-- The index-validation tail of `aiRankTop5`: keep the elements that pass
`typeof i === 'number' && i >= 0 && i < top100.length` — a filter a
fractional number such as 0.5 also passes — take the first 5, and read
`top100[i]`: the indexed job for an integral index, JS `undefined`
(`none`) for a fractional one.  (The earlier stages — HTTP, JSON parsing,
the array-shape check — throw, and are modelled by the `.error`
alternative of `Env.aiAttempt`.) -/
def aiRankTop5 (top100 : List Job) (indices : List (Option Rat)) : List (Option Job) :=
  (((indices.filterMap (fun x => x)).filter
      (fun (i : Rat) => decide (0 ≤ i) && decide (i < (top100.length : Rat)))).take 5).map
    (fun i => if i.den = 1 then top100.get? i.num.toNat else none)

-- ── scrapeAllJobs (background worker) ────────────────────────────────────────

/-- The per-board contribution to the fetch loop: the fetched list on
success, nothing when the fetch threw (the error is only logged). -/
def okPart (b : Except String (List Job)) : List Job :=
  match b with
  | .ok fetched => fetched
  | .error _ => []

/-- All successfully fetched jobs of a run, in board order. -/
def okJobsOf (boards : List (Except String (List Job))) : List Job :=
  boards.flatMap okPart

/-- The `newJobs` batch: every fetched job whose `id` is not a key of
`existingMap` (equivalently, not the `id` of any existing job); errored
boards contribute nothing. -/
def newJobsOf (existing : List Job) (boards : List (Except String (List Job))) :
    List Job :=
  boards.flatMap (fun b =>
    (okPart b).filter (fun j => !(existing.any (fun e => e.id = j.id))))

/-- Auxiliary for `firstDistinct`: keep the elements not yet seen, in
order, extending the seen set as we go. -/
def firstDistinctAux {α : Type} [DecidableEq α] (seen : List α) : List α → List α
  | [] => []
  | a :: rest =>
      if a ∈ seen then firstDistinctAux seen rest
      else a :: firstDistinctAux (a :: seen) rest

/-- First occurrences of a list's elements, in order: the iteration order
of a JS `Set` built from the list, and the key order of a JS object
populated by repeated assignment (a re-assigned key keeps its original
position). -/
def firstDistinct {α : Type} [DecidableEq α] (l : List α) : List α :=
  firstDistinctAux [] l

/-- The last job of a list carrying a given id (the value a JS object holds
after assigning every list element under its id key). -/
def lastWith (jobs : List Job) (i : String) : Option Job :=
  (jobs.filter (fun j => j.id = i)).getLast?

/-- `Object.values(existingMap)` where `existingMap[j.id] = j` was assigned
for each existing job in order: for each distinct id in first-occurrence
order, the last job with that id.  (The 40-hex-digit ids are never array
indices, so JS object key order is insertion order.) -/
def objValues (jobs : List Job) : List Job :=
  (firstDistinct (jobs.map (fun j => j.id))).filterMap (lastWith jobs)

/-- Step 4 of the pipeline: `Object.values(existingMap).concat(newJobs)`. -/
def mergedJobs (existing : List Job) (boards : List (Except String (List Job))) :
    List Job :=
  objValues existing ++ newJobsOf existing boards

/-- `Date.now() - MAX_JOB_AGE_DAYS * 86400 * 1000`. -/
def cutoffOf (now : Int) : Int :=
  now - MAX_JOB_AGE_DAYS * 86400 * 1000

/-- The prune predicate `new Date(j.first_seen_at).getTime() > cutoff`; a
`NaN` timestamp (`none`) compares false. -/
def pruneFilter (cutoff : Int) (j : Job) : Bool :=
  match j.first_seen_at with
  | some ts => decide (cutoff < ts)
  | none => false

/-- The merged-and-pruned collection of a run. -/
def prunedJobs (st : Store) (env : Env) : List Job :=
  (mergedJobs st.jobs env.boards).filter (pruneFilter (cutoffOf env.now))

/-- The text a job is scored against:
`[j.title, j.company, j.location, j.description].join(' ')`. -/
def jobText (j : Job) : String :=
  j.title ++ " " ++ j.company ++ " " ++ j.location ++ " " ++ j.description

/-- The per-job scoring assignment `j.score = scoreJob(text, kwSet)[0]`,
where `kwSet = new Set(keywords)`. -/
def rescore (keywords : List String) (j : Job) : Job :=
  { j with score := (scoreJob (jobText j) (firstDistinct keywords)).1 }

/-- The merged, pruned and re-scored collection of a run. -/
def scoredJobs (st : Store) (env : Env) : List Job :=
  (prunedJobs st env).map (rescore env.keywords)

/-- `posted_at` as read by the sort comparator:
`a.posted_at ? new Date(a.posted_at).getTime() : 0`. -/
def postedTime (j : Job) : Int :=
  j.posted_at.getD 0

/-- The sort order of the pipeline's comparator
`(a, b) => b.score - a.score || (posted b) - (posted a)`:
`a` may precede `b` iff the comparator is ≤ 0 on `(a, b)`, i.e. score
descending, ties by posted time descending. -/
def jobBefore (a b : Job) : Prop :=
  b.score < a.score ∨ (a.score = b.score ∧ postedTime b ≤ postedTime a)

instance : DecidableRel jobBefore := fun a b => by
  unfold jobBefore; infer_instance

-- ── Order instances for the comparator preorder ──────────────────────────────

instance : IsTotal Job jobBefore where
  total a b := by
    unfold jobBefore
    rcases Nat.lt_trichotomy a.score b.score with h | h | h
    · exact Or.inr (Or.inl h)
    · rcases Int.le_total (postedTime b) (postedTime a) with h2 | h2
      · exact Or.inl (Or.inr ⟨h, h2⟩)
      · exact Or.inr (Or.inr ⟨h.symm, h2⟩)
    · exact Or.inl (Or.inl h)

instance : IsTrans Job jobBefore where
  trans a b c hab hbc := by
    unfold jobBefore at *
    rcases hab with h1 | ⟨h1, h1'⟩ <;> rcases hbc with h2 | ⟨h2, h2'⟩
    · exact Or.inl (h2.trans h1)
    · exact Or.inl (h2 ▸ h1)
    · exact Or.inl (h1 ▸ h2)
    · exact Or.inr ⟨h1.trans h2, h2'.trans h1'⟩

/-- The sorted collection: JS stable sort = stable insertion sort under the
comparator preorder. -/
def sortedJobs (st : Store) (env : Env) : List Job :=
  (scoredJobs st env).insertionSort jobBefore

/-- The cap step: `if (allJobs.length > MAX_JOBS) allJobs = allJobs.slice(0, MAX_JOBS)`. -/
def cappedJobs (st : Store) (env : Env) : List Job :=
  let s := sortedJobs st env
  if s.length > MAX_JOBS then s.take MAX_JOBS else s

/-- The description truncation applied by the size guard to one job. -/
def truncateDesc (j : Job) : Job :=
  if j.description.length > 500 then { j with description := jsTake j.description 500 }
  else j

/-- The size guard: when the estimated serialized size exceeds the
threshold, truncate every over-long description. -/
def sizeGuard (size : Nat) (jobs : List Job) : List Job :=
  if size > STORAGE_WARN_BYTES then jobs.map truncateDesc else jobs

/-- The job list persisted by a successful run. -/
def finalJobs (st : Store) (env : Env) : List Job :=
  sizeGuard (env.sizeEstimate (cappedJobs st env)) (cappedJobs st env)

/-- `top100 = allJobs.slice(0, 100)`. -/
def top100Of (st : Store) (env : Env) : List Job :=
  (finalJobs st env).take 100

/-- The keyword-only default shortlist `top100.slice(0, 5)`: all its
entries are defined jobs. -/
def defaultTopOf (st : Store) (env : Env) : List (Option Job) :=
  ((top100Of st env).take 5).map some

/-- The shortlist actually persisted: the AI picks when the AI rank was
attempted, returned an array, and yielded at least one valid pick;
otherwise the keyword-only default; an entry is `none` when the stored
pick is JS `undefined`. -/
def topJobsOf (st : Store) (env : Env) : List (Option Job) :=
  match env.aiAttempt with
  | none => defaultTopOf st env
  | some (.error _) => defaultTopOf st env
  | some (.ok indices) =>
      if (top100Of st env).length > 0 then
        if (aiRankTop5 (top100Of st env) indices).length > 0 then
          aiRankTop5 (top100Of st env) indices
        else defaultTopOf st env
      else defaultTopOf st env

/-- The body of `scrapeAllJobs` (the outer `try` block): on success the four
store keys are written together. -/
def scrapeAllJobsCore (st : Store) (env : Env) : Store :=
  { st with
    jobs := finalJobs st env
    topJobs := topJobsOf st env
    jobsLastUpdated := some env.now
    jobsLastError := none }

/-- `scrapeAllJobs()`: the whole body is guarded by one `try`; an exception
escaping the inner per-call guards reaches the outer `catch`, which writes
only `jobsLastError`. -/
def scrapeAllJobs (st : Store) (env : Env) : Store :=
  match env.unguardedFailure with
  | some msg => { st with jobsLastError := some msg }
  | none => scrapeAllJobsCore st env

/-- Ids of a job list. -/
def idsOf (jobs : List Job) : List String :=
  jobs.map (fun j => j.id)

-- ── Concrete fixtures used by the witnesses ─────────────────────────────────

/-- A normalized Greenhouse-style job used as concrete test data. -/
def wJob1 : Job :=
  { id := "a1", source := "greenhouse", company := "acme", title := "Python Engineer",
    location := "NYC", url := "https://boards.greenhouse.io/acme/jobs/1",
    posted_at := some 5, description := "python", first_seen_at := some 100, score := 0 }

/-- A normalized Lever-style job used as concrete test data. -/
def wJob2 : Job :=
  { id := "b2", source := "lever", company := "beta", title := "Rust Dev",
    location := "SF", url := "https://jobs.lever.co/beta/2",
    posted_at := none, description := "rust", first_seen_at := some 90, score := 0 }

/-- A job whose `first_seen_at` does not parse (`NaN` timestamp). -/
def wJobNaN : Job :=
  { id := "c3", source := "lever", company := "gamma", title := "Ghost",
    location := "", url := "u3", posted_at := none, description := "",
    first_seen_at := none, score := 0 }

def wStore : Store :=
  { jobs := [wJob1], topJobs := [], jobsLastUpdated := none, jobsLastError := none }

def wEnv : Env :=
  { boards := [Except.ok [wJob1, wJob2]], now := 200, keywords := ["python"],
    sizeEstimate := fun _ => 0, aiAttempt := none, unguardedFailure := none }

def wEnvAiErr : Env :=
  { wEnv with aiAttempt := some (Except.error "OpenAI HTTP 500") }

def wEnvFail : Env :=
  { wEnv with unguardedFailure := some "storage write failed" }

def wCvEnv : CvEnv :=
  { cvLink := some "https://docs.google.com/document/d/x", cvKeywordsCache := none,
    cvKeywordsUpdatedAt := none, apiKey := some "sk-test", now := 0,
    docFetch := Except.ok "Senior Python Engineer",
    aiResponse := Except.error "OpenAI HTTP 500" }

/-- The JS number 0.5: a fractional value that passes the re-rank index
filter whenever the pool is non-empty, while `top100[0.5]` is `undefined`. -/
def halfIdx : Rat := ⟨1, 2, by decide, Nat.coprime_one_left 2⟩

/-- A run in which the LLM re-rank returns the array `[0.5]`. -/
def wEnvFrac : Env :=
  { wEnv with aiAttempt := some (Except.ok [some halfIdx]) }

-- ── Helper lemmas ────────────────────────────────────────────────────────────
-- ── Field-preservation helper lemmas ─────────────────────────────────────────

theorem truncateDesc_id (j : Job) : (truncateDesc j).id = j.id := by
  unfold truncateDesc; split <;> rfl

theorem truncateDesc_first_seen_at (j : Job) :
    (truncateDesc j).first_seen_at = j.first_seen_at := by
  unfold truncateDesc; split <;> rfl

theorem truncateDesc_posted_at (j : Job) : (truncateDesc j).posted_at = j.posted_at := by
  unfold truncateDesc; split <;> rfl

theorem truncateDesc_score (j : Job) : (truncateDesc j).score = j.score := by
  unfold truncateDesc; split <;> rfl

theorem rescore_id (kw : List String) (j : Job) : (rescore kw j).id = j.id := rfl

theorem rescore_first_seen_at (kw : List String) (j : Job) :
    (rescore kw j).first_seen_at = j.first_seen_at := rfl

theorem rescore_posted_at (kw : List String) (j : Job) :
    (rescore kw j).posted_at = j.posted_at := rfl

theorem rescore_score (kw : List String) (j : Job) :
    (rescore kw j).score = (scoreJob (jobText j) (firstDistinct kw)).1 := rfl

theorem postedTime_truncateDesc (j : Job) : postedTime (truncateDesc j) = postedTime j := by
  unfold postedTime; rw [truncateDesc_posted_at]

theorem jobBefore_truncateDesc_left (a b : Job) :
    jobBefore (truncateDesc a) b ↔ jobBefore a b := by
  unfold jobBefore
  rw [truncateDesc_score, postedTime_truncateDesc]

theorem jobBefore_truncateDesc_right (a b : Job) :
    jobBefore a (truncateDesc b) ↔ jobBefore a b := by
  unfold jobBefore
  rw [truncateDesc_score, postedTime_truncateDesc]

-- ── Pipeline structure lemmas ────────────────────────────────────────────────

theorem cappedJobs_eq_take (st : Store) (env : Env) :
    cappedJobs st env = (sortedJobs st env).take MAX_JOBS := by
  unfold cappedJobs
  by_cases h : (sortedJobs st env).length > MAX_JOBS
  · simp only [h, if_true]
  · simp only [h, if_false, List.take_of_length_le (Nat.le_of_not_lt h)]

theorem sortedJobs_perm (st : Store) (env : Env) :
    (sortedJobs st env).Perm (scoredJobs st env) :=
  List.perm_insertionSort jobBefore _

theorem sortedJobs_sorted (st : Store) (env : Env) :
    (sortedJobs st env).Pairwise jobBefore :=
  List.sorted_insertionSort jobBefore _

theorem newJobsOf_eq_filter (existing : List Job) (boards : List (Except String (List Job))) :
    newJobsOf existing boards =
      (okJobsOf boards).filter (fun j => !(existing.any (fun e => e.id = j.id))) := by
  induction boards with
  | nil => rfl
  | cons b bs ih =>
      unfold newJobsOf okJobsOf at *
      simp only [List.flatMap_cons, List.filter_append, ih]

theorem scrapeAllJobs_jobs_eq (st : Store) (env : Env) (h : env.unguardedFailure = none) :
    (scrapeAllJobs st env).jobs = finalJobs st env := by
  unfold scrapeAllJobs
  rw [h]
  rfl

theorem scrapeAllJobs_topJobs_eq (st : Store) (env : Env) (h : env.unguardedFailure = none) :
    (scrapeAllJobs st env).topJobs = topJobsOf st env := by
  unfold scrapeAllJobs
  rw [h]
  rfl

theorem scrapeAllJobs_lastError (st : Store) (env : Env) (h : env.unguardedFailure = none) :
    (scrapeAllJobs st env).jobsLastError = none := by
  unfold scrapeAllJobs
  rw [h]
  rfl

/-- Every job persisted by a successful run descends from a merged job that
passed the prune filter, with identity, `first_seen_at`, `posted_at`
preserved and the score recomputed from that job's own text. -/
theorem mem_finalJobs_trace (st : Store) (env : Env) (j' : Job)
    (h : j' ∈ finalJobs st env) :
    ∃ j0 ∈ mergedJobs st.jobs env.boards,
      pruneFilter (cutoffOf env.now) j0 = true ∧
      j'.id = j0.id ∧ j'.first_seen_at = j0.first_seen_at ∧
      j'.posted_at = j0.posted_at ∧
      j'.score = (scoreJob (jobText j0) (firstDistinct env.keywords)).1 := by
  unfold finalJobs sizeGuard at h
  have hcap : ∃ j'' ∈ cappedJobs st env,
      j'.id = j''.id ∧ j'.first_seen_at = j''.first_seen_at ∧
      j'.posted_at = j''.posted_at ∧ j'.score = j''.score := by
    split at h
    · rcases List.mem_map.1 h with ⟨j'', hj'', rfl⟩
      exact ⟨j'', hj'', truncateDesc_id _, truncateDesc_first_seen_at _,
        truncateDesc_posted_at _, truncateDesc_score _⟩
    · exact ⟨j', h, rfl, rfl, rfl, rfl⟩
  rcases hcap with ⟨j'', hj'', hid, hfs, hpa, hsc⟩
  have hsorted : j'' ∈ sortedJobs st env := by
    rw [cappedJobs_eq_take] at hj''
    exact List.take_subset _ _ hj''
  have hscored : j'' ∈ scoredJobs st env := (sortedJobs_perm st env).subset hsorted
  unfold scoredJobs at hscored
  rcases List.mem_map.1 hscored with ⟨j0, hj0, rfl⟩
  unfold prunedJobs at hj0
  rcases List.mem_filter.1 hj0 with ⟨hj0m, hj0p⟩
  exact ⟨j0, hj0m, hj0p, hid, hfs, hpa, hsc⟩

theorem firstDistinctAux_eq_self {α : Type} [DecidableEq α] (seen : List α) (l : List α)
    (h1 : ∀ x ∈ l, x ∉ seen) (h2 : l.Nodup) : firstDistinctAux seen l = l := by
  induction l generalizing seen with
  | nil => rfl
  | cons a t ih =>
      unfold firstDistinctAux
      rw [if_neg (h1 a (List.mem_cons_self a t))]
      congr 1
      apply ih
      · intro x hx
        rcases List.nodup_cons.1 h2 with ⟨ha, _⟩
        intro hmem
        rcases List.mem_cons.1 hmem with rfl | hmem
        · exact ha hx
        · exact h1 x (List.mem_cons_of_mem a hx) hmem
      · exact (List.nodup_cons.1 h2).2

theorem firstDistinct_eq_self {α : Type} [DecidableEq α] (l : List α) (h : l.Nodup) :
    firstDistinct l = l :=
  firstDistinctAux_eq_self [] l (fun _ _ => List.not_mem_nil _) h

theorem filterMap_lastWith (l : List Job) (h : (l.map (fun j => j.id)).Nodup) :
    (l.map (fun j => j.id)).filterMap (lastWith l) = l := by
  induction l with
  | nil => rfl
  | cons j t ih =>
      simp only [List.map_cons, List.nodup_cons] at h
      obtain ⟨hj, ht⟩ := h
      simp only [List.map_cons, List.filterMap_cons]
      have hfil : t.filter (fun x => x.id = j.id) = [] := by
        apply List.filter_eq_nil_iff.2
        intro a ha
        simp only [decide_eq_true_eq]
        intro hcontra
        exact hj (hcontra ▸ List.mem_map_of_mem (fun x => x.id) ha)
      have h1 : lastWith (j :: t) j.id = some j := by
        unfold lastWith
        rw [List.filter_cons_of_pos (by simp), hfil]
        rfl
      rw [h1]
      have h2 : ∀ i ∈ t.map (fun x => x.id), lastWith (j :: t) i = lastWith t i := by
        intro i hi
        unfold lastWith
        rw [List.filter_cons_of_neg]
        simp only [decide_eq_true_eq]
        intro hcontra
        exact hj (hcontra ▸ hi)
      rw [List.filterMap_congr h2, ih ht]

theorem objValues_eq_self (l : List Job) (h : (idsOf l).Nodup) : objValues l = l := by
  unfold objValues
  unfold idsOf at h
  rw [firstDistinct_eq_self _ h, filterMap_lastWith l h]

theorem idsOf_append (a b : List Job) : idsOf (a ++ b) = idsOf a ++ idsOf b :=
  List.map_append _ a b

theorem idsOf_map_truncate (l : List Job) : idsOf (l.map truncateDesc) = idsOf l := by
  unfold idsOf
  rw [List.map_map]
  exact List.map_congr_left (fun j _ => truncateDesc_id j)

theorem idsOf_map_rescore (kw : List String) (l : List Job) :
    idsOf (l.map (rescore kw)) = idsOf l := by
  unfold idsOf
  rw [List.map_map]
  exact List.map_congr_left (fun j _ => rescore_id kw j)

theorem idsOf_sizeGuard (n : Nat) (l : List Job) : idsOf (sizeGuard n l) = idsOf l := by
  unfold sizeGuard
  split
  · exact idsOf_map_truncate l
  · rfl

theorem merged_ids_nodup (st : Store) (env : Env) (hn : (idsOf st.jobs).Nodup)
    (hf : (idsOf (okJobsOf env.boards)).Nodup) :
    (idsOf (mergedJobs st.jobs env.boards)).Nodup := by
  unfold mergedJobs
  rw [idsOf_append, objValues_eq_self _ hn]
  refine List.nodup_append.2 ⟨hn, ?_, ?_⟩
  · have hsub : List.Sublist (idsOf (newJobsOf st.jobs env.boards)) (idsOf (okJobsOf env.boards)) := by
      rw [newJobsOf_eq_filter]
      exact (List.filter_sublist _).map _
    exact hf.sublist hsub
  · intro a ha hb
    unfold idsOf at ha hb
    rcases List.mem_map.1 hb with ⟨j, hj, rfl⟩
    rw [newJobsOf_eq_filter] at hj
    rcases List.mem_filter.1 hj with ⟨_, hpred⟩
    simp only [Bool.not_eq_true', List.any_eq_false, decide_eq_true_eq] at hpred
    rcases List.mem_map.1 ha with ⟨e, he, hid⟩
    exact hpred e he hid

theorem finalJobs_ids_nodup (st : Store) (env : Env)
    (h : (idsOf (mergedJobs st.jobs env.boards)).Nodup) :
    (idsOf (finalJobs st env)).Nodup := by
  have h1 : List.Sublist (idsOf (prunedJobs st env)) (idsOf (mergedJobs st.jobs env.boards)) := by
    unfold prunedJobs
    exact (List.filter_sublist _).map _
  have h2 : idsOf (scoredJobs st env) = idsOf (prunedJobs st env) :=
    idsOf_map_rescore env.keywords _
  have h3 : (idsOf (sortedJobs st env)).Perm (idsOf (scoredJobs st env)) :=
    (sortedJobs_perm st env).map _
  have h4 : List.Sublist (idsOf (cappedJobs st env)) (idsOf (sortedJobs st env)) := by
    rw [cappedJobs_eq_take]
    unfold idsOf
    rw [List.map_take]
    exact List.take_sublist _ _
  have h5 : idsOf (finalJobs st env) = idsOf (cappedJobs st env) :=
    idsOf_sizeGuard _ _
  rw [h5]
  exact ((h3.nodup_iff.2 (h2 ▸ h.sublist h1)).sublist h4)

theorem any_id_eq_false_iff (existing : List Job) (j : Job) :
    (existing.any (fun e => e.id = j.id) = false) ↔ j.id ∉ idsOf existing := by
  simp only [List.any_eq_false, decide_eq_true_eq, idsOf, List.mem_map]
  constructor
  · rintro h ⟨e, he, hid⟩
    exact h e he hid
  · intro h e he hid
    exact h ⟨e, he, hid⟩

/-- Claim C1: re-running the pipeline over unchanged board results creates
no duplicate `id` in the persisted `jobs` collection and never changes the
`first_seen_at` of a pre-existing entry; a fetched job enters the `newJobs`
batch exactly when its `id` is absent from the existing store's identity
index.  (Stated for any run whose existing store and fetched results carry
no internally duplicated ids, which is the second-run situation the claim
describes.) -/
theorem scrape_dedup_idempotent (st : Store) (env : Env)
    (hu : env.unguardedFailure = none)
    (hn : (idsOf st.jobs).Nodup)
    (hf : (idsOf (okJobsOf env.boards)).Nodup) :
    (idsOf (scrapeAllJobs st env).jobs).Nodup
    ∧ (∀ j ∈ st.jobs, ∀ j' ∈ (scrapeAllJobs st env).jobs,
        j'.id = j.id → j'.first_seen_at = j.first_seen_at)
    ∧ (∀ j : Job, j ∈ newJobsOf st.jobs env.boards ↔
        (j ∈ okJobsOf env.boards ∧ j.id ∉ idsOf st.jobs)) := by
  have hjobs := scrapeAllJobs_jobs_eq st env hu
  refine ⟨?_, ?_, ?_⟩
  · rw [hjobs]
    exact finalJobs_ids_nodup st env (merged_ids_nodup st env hn hf)
  · intro j hj j' hj' hid
    rw [hjobs] at hj'
    rcases mem_finalJobs_trace st env j' hj' with ⟨j0, hj0m, _, hid0, hfs0, _, _⟩
    unfold mergedJobs at hj0m
    rw [objValues_eq_self _ hn] at hj0m
    rcases List.mem_append.1 hj0m with hj0e | hj0n
    · have hn' : (st.jobs.map (fun j => j.id)).Nodup := hn
      have heq : j0 = j :=
        List.inj_on_of_nodup_map hn' hj0e hj (by rw [← hid0, hid])
      rw [hfs0, heq]
    · exfalso
      rw [newJobsOf_eq_filter] at hj0n
      rcases List.mem_filter.1 hj0n with ⟨_, hpred⟩
      rw [Bool.not_eq_true'] at hpred
      have hnotin := (any_id_eq_false_iff st.jobs j0).1 hpred
      apply hnotin
      have : j0.id = j.id := by rw [← hid0, hid]
      rw [this]
      exact List.mem_map_of_mem _ hj
  · intro j
    rw [newJobsOf_eq_filter, List.mem_filter, Bool.not_eq_true', any_id_eq_false_iff]

/-- Claim C2: after every successful run the persisted `jobs` list has
length at most `MAX_JOBS`, and it is exactly the first `MAX_JOBS` prefix of
the stably sorted merged-and-pruned-and-scored collection (score
descending, ties by `posted_at` descending with `null` sorting as
timestamp 0) — up to the uniform description truncation of the size guard,
which moves no entry; in particular every retained entry sorts no lower
than every dropped entry, and the persisted list is itself sorted. -/
theorem scrape_cap_and_order (st : Store) (env : Env)
    (hu : env.unguardedFailure = none) :
    ((scrapeAllJobs st env).jobs.length ≤ MAX_JOBS)
    ∧ (scrapeAllJobs st env).jobs.Pairwise jobBefore
    ∧ ((scrapeAllJobs st env).jobs = (sortedJobs st env).take MAX_JOBS ∨
       (scrapeAllJobs st env).jobs = ((sortedJobs st env).take MAX_JOBS).map truncateDesc)
    ∧ (∀ a ∈ (scrapeAllJobs st env).jobs, ∀ b ∈ (sortedJobs st env).drop MAX_JOBS, jobBefore a b)
    ∧ (sortedJobs st env).Perm (scoredJobs st env) := by
  have hjobs := scrapeAllJobs_jobs_eq st env hu
  have hfin : finalJobs st env = (sortedJobs st env).take MAX_JOBS ∨
      finalJobs st env = ((sortedJobs st env).take MAX_JOBS).map truncateDesc := by
    unfold finalJobs sizeGuard
    rw [cappedJobs_eq_take]
    split
    · right; rfl
    · left; rfl
  have hpair : ((sortedJobs st env).take MAX_JOBS).Pairwise jobBefore :=
    (sortedJobs_sorted st env).sublist (List.take_sublist _ _)
  have hcross : ∀ a ∈ (sortedJobs st env).take MAX_JOBS,
      ∀ b ∈ (sortedJobs st env).drop MAX_JOBS, jobBefore a b := by
    have hs := sortedJobs_sorted st env
    rw [← List.take_append_drop MAX_JOBS (sortedJobs st env)] at hs
    exact (List.pairwise_append.1 hs).2.2
  refine ⟨?_, ?_, ?_, ?_, sortedJobs_perm st env⟩
  · rw [hjobs]
    rcases hfin with h | h <;> rw [h]
    · rw [List.length_take]; exact Nat.min_le_left _ _
    · rw [List.length_map, List.length_take]; exact Nat.min_le_left _ _
  · rw [hjobs]
    rcases hfin with h | h <;> rw [h]
    · exact hpair
    · rw [List.pairwise_map]
      apply hpair.imp
      intro a b hab
      rw [jobBefore_truncateDesc_left, jobBefore_truncateDesc_right]
      exact hab
  · rw [hjobs]; exact hfin
  · rw [hjobs]
    intro a ha b hb
    rcases hfin with h | h
    · rw [h] at ha
      exact hcross a ha b hb
    · rw [h] at ha
      rcases List.mem_map.1 ha with ⟨a0, ha0, rfl⟩
      exact (jobBefore_truncateDesc_left a0 b).2 (hcross a0 ha0 b hb)

/-- Claim C3: the prune step measures `first_seen_at` against the 30-day
cutoff at run start: every job persisted by a successful run has a parsed
`first_seen_at` strictly newer than the cutoff (so a job older than the
cutoff is absent from the store), and a merged job one second (1000 ms)
inside the window survives the prune step. -/
theorem scrape_retention (st : Store) (env : Env)
    (hu : env.unguardedFailure = none) :
    (∀ j' ∈ (scrapeAllJobs st env).jobs,
      ∃ ts, j'.first_seen_at = some ts ∧ cutoffOf env.now < ts)
    ∧ (∀ j ∈ mergedJobs st.jobs env.boards,
        j.first_seen_at = some (cutoffOf env.now + 1000) → j ∈ prunedJobs st env) := by
  constructor
  · intro j' hj'
    rw [scrapeAllJobs_jobs_eq st env hu] at hj'
    rcases mem_finalJobs_trace st env j' hj' with ⟨j0, _, hp, _, hfs, _, _⟩
    unfold pruneFilter at hp
    cases hfs0 : j0.first_seen_at with
    | none => rw [hfs0] at hp; exact absurd hp (by simp)
    | some ts =>
        rw [hfs0] at hp
        exact ⟨ts, by rw [hfs, hfs0], of_decide_eq_true hp⟩
  · intro j hm hfs
    apply List.mem_filter.2 ⟨hm, ?_⟩
    unfold pruneFilter
    rw [hfs]
    simp only [decide_eq_true_eq]
    omega

/-- Claim C10: a job whose `first_seen_at` is missing or unparseable (a
`NaN` timestamp, modelled as `none`) fails the prune predicate for every
cutoff, a job whose `first_seen_at` equals the cutoff exactly is also
removed, and the retention comparison is strict greater-than; such a job is
absent from the merged-and-pruned collection. -/
theorem prune_step_nan_and_exact (st : Store) (env : Env) :
    (∀ (c : Int) (j : Job), j.first_seen_at = none → pruneFilter c j = false)
    ∧ (∀ (c : Int) (j : Job), j.first_seen_at = some c → pruneFilter c j = false)
    ∧ (∀ (c : Int) (j : Job),
        pruneFilter c j = true ↔ ∃ ts, j.first_seen_at = some ts ∧ c < ts)
    ∧ (∀ j ∈ mergedJobs st.jobs env.boards,
        pruneFilter (cutoffOf env.now) j = false → j ∉ prunedJobs st env) := by
  refine ⟨?_, ?_, ?_, ?_⟩
  · intro c j h
    unfold pruneFilter
    rw [h]
  · intro c j h
    unfold pruneFilter
    rw [h]
    simp only [decide_eq_false_iff_not]
    omega
  · intro c j
    unfold pruneFilter
    cases h : j.first_seen_at with
    | none => simp
    | some ts => simp
  · intro j _ hfalse hmem
    rcases List.mem_filter.1 hmem with ⟨_, htrue⟩
    rw [hfalse] at htrue
    exact Bool.false_ne_true htrue

/-- Claim C9, amended: after every successful pipeline run the persisted
shortlist `topJobs` has at most 5 entries, and every defined entry (`some
job`) is an element of the persisted `jobs` list, in both the keyword-only
branch and the AI-ranked branch.  The AI-ranked branch can additionally
store `undefined` entries — from fractional in-range indices — which
belong to no job list (see the counterexample). -/
theorem scrape_topJobs_bounded_subset (st : Store) (env : Env)
    (hu : env.unguardedFailure = none) :
    (scrapeAllJobs st env).topJobs.length ≤ 5
    ∧ ∀ e ∈ (scrapeAllJobs st env).topJobs, ∀ j : Job,
        e = some j → j ∈ (scrapeAllJobs st env).jobs := by
  rw [scrapeAllJobs_topJobs_eq st env hu, scrapeAllJobs_jobs_eq st env hu]
  have hdef : (defaultTopOf st env).length ≤ 5 ∧
      ∀ e ∈ defaultTopOf st env, ∀ j : Job, e = some j → j ∈ finalJobs st env := by
    constructor
    · unfold defaultTopOf
      rw [List.length_map, List.length_take]
      exact Nat.min_le_left _ _
    · intro e he j hej
      unfold defaultTopOf top100Of at he
      rcases List.mem_map.1 he with ⟨j0, hj0, rfl⟩
      obtain rfl := Option.some_inj.1 hej
      exact List.take_subset _ _ (List.take_subset _ _ hj0)
  have hai : ∀ idxs, (aiRankTop5 (top100Of st env) idxs).length ≤ 5 ∧
      ∀ e ∈ aiRankTop5 (top100Of st env) idxs, ∀ j : Job,
        e = some j → j ∈ finalJobs st env := by
    intro idxs
    constructor
    · unfold aiRankTop5
      rw [List.length_map, List.length_take]
      exact Nat.min_le_left _ _
    · intro e he j hej
      unfold aiRankTop5 at he
      rcases List.mem_map.1 he with ⟨i, _, rfl⟩
      by_cases hd : i.den = 1
      · rw [if_pos hd] at hej
        have hj : j ∈ top100Of st env := List.get?_mem hej
        unfold top100Of at hj
        exact List.take_subset _ _ hj
      · rw [if_neg hd] at hej
        exact Option.noConfusion hej
  unfold topJobsOf
  split
  · exact hdef
  · exact hdef
  · split
    · split
      · exact hai _
      · exact hdef
    · exact hdef

/-- Claim C9, counterexample: the claim fails as stated.  When the LLM
returns the array `[0.5]` over a non-empty pool, the fractional index
passes the source's validity filter, `top100[0.5]` is `undefined`, and the
persisted `topJobs` is `[undefined]` — an entry that is an element of no
job list, although the persisted `jobs` list is non-empty. -/
theorem scrape_topJobs_undefined_cex :
    wEnvFrac.unguardedFailure = none
    ∧ wEnvFrac.aiAttempt = some (Except.ok [some halfIdx])
    ∧ (scrapeAllJobs wStore wEnvFrac).topJobs = [none]
    ∧ (scrapeAllJobs wStore wEnvFrac).jobs ≠ []
    ∧ ¬ (∀ e ∈ (scrapeAllJobs wStore wEnvFrac).topJobs,
          ∃ j ∈ (scrapeAllJobs wStore wEnvFrac).jobs, e = some j) :=
  ⟨rfl, rfl, by decide, by decide, by decide⟩

/-- Claim C5, counterexample: the claim fails as stated.  The returned
array `[0.5]` holds only an invalid index — it selects no job, since
`top100[0.5]` is `undefined` — yet over a non-empty pool the code does not
retain the keyword-only default: 0.5 passes the validity filter
`typeof i === 'number' && i >= 0 && i < top100.length`, the single
`undefined` pick makes `aiPicks.length > 0`, and the persisted shortlist
becomes `[undefined]` instead of the default. -/
theorem scrape_ranking_fractional_cex :
    wEnvFrac.aiAttempt = some (Except.ok [some halfIdx])
    ∧ halfIdx.den ≠ 1
    ∧ aiRankTop5 (top100Of wStore wEnvFrac) [some halfIdx] = [none]
    ∧ (scrapeAllJobs wStore wEnvFrac).topJobs ≠ defaultTopOf wStore wEnvFrac
    ∧ (scrapeAllJobs wStore wEnvFrac).jobsLastError = none :=
  ⟨rfl, by decide, by decide, by decide, rfl⟩

/-- Claim C5, amended: whenever the LLM re-rank fails by a thrown transport
error or bad response shape, or returns an array in which no element
passes the validity filter (a number `i` with `0 ≤ i <` pool size, a test
a fractional in-range number also passes), the persisted shortlist is the
keyword-only default `top100.slice(0, 5)` and the run completes with
`jobsLastError` null.  (An array containing a fractional in-range number
instead stores its `undefined` picks — see the counterexample.) -/
theorem scrape_ranking_fallback (st : Store) (env : Env)
    (hu : env.unguardedFailure = none)
    (hfail : (∃ e, env.aiAttempt = some (Except.error e)) ∨
             (∃ idxs, env.aiAttempt = some (Except.ok idxs) ∧
                aiRankTop5 (top100Of st env) idxs = [])) :
    (scrapeAllJobs st env).topJobs = defaultTopOf st env
    ∧ (scrapeAllJobs st env).jobsLastError = none := by
  refine ⟨?_, scrapeAllJobs_lastError st env hu⟩
  rw [scrapeAllJobs_topJobs_eq st env hu]
  unfold topJobsOf
  rcases hfail with ⟨e, he⟩ | ⟨idxs, he, hempty⟩
  · rw [he]
  · rw [he]
    dsimp only
    split
    · rw [hempty]
      simp
    · rfl

/-- Claim C6: a pipeline-level exception outside the per-board fetch
boundaries aborts the run storing only the error message: `jobs`,
`topJobs` and `jobsLastUpdated` keep their previous values and the error
text is recorded in `jobsLastError`. -/
theorem scrape_pipeline_error_preserves (st : Store) (env : Env) (msg : String)
    (h : env.unguardedFailure = some msg) :
    (scrapeAllJobs st env).jobs = st.jobs
    ∧ (scrapeAllJobs st env).topJobs = st.topJobs
    ∧ (scrapeAllJobs st env).jobsLastUpdated = st.jobsLastUpdated
    ∧ (scrapeAllJobs st env).jobsLastError = some msg := by
  unfold scrapeAllJobs
  rw [h]
  exact ⟨rfl, rfl, rfl, rfl⟩

/-- Claim C7: one board's fetch failure does not abort the run: the whole
run result is identical to the run without that board (zero jobs
contributed, every other board's jobs still merged), and the persisted
last-error field is null after the run. -/
theorem scrape_board_failure_isolated (st : Store) (env : Env) (msg : String)
    (bs1 bs2 : List (Except String (List Job))) :
    scrapeAllJobs st { env with boards := bs1 ++ Except.error msg :: bs2 }
      = scrapeAllJobs st { env with boards := bs1 ++ bs2 }
    ∧ (env.unguardedFailure = none →
        (scrapeAllJobs st { env with boards := bs1 ++ Except.error msg :: bs2 }).jobsLastError
          = none) := by
  have hnew : newJobsOf st.jobs (bs1 ++ Except.error msg :: bs2)
      = newJobsOf st.jobs (bs1 ++ bs2) := by
    unfold newJobsOf
    rw [List.flatMap_append, List.flatMap_cons, List.flatMap_append]
    simp [okPart]
  constructor
  · simp only [scrapeAllJobs, scrapeAllJobsCore, topJobsOf, defaultTopOf, top100Of,
      finalJobs, cappedJobs, sortedJobs, scoredJobs, prunedJobs, mergedJobs, hnew]
  · intro h
    exact scrapeAllJobs_lastError st _ h

theorem extract_vocab_nodup : (techTerms ++ roleTerms).Nodup := by decide

/-- Claim C4, counterexample: the claim fails as stated.  The keyword "A"
is a case-insensitive substring of the text "a" (their lower-casings
contain each other), yet `scoreJob "a" ["A"]` scores 0, not 100, because
the source lower-cases only the job text, not the keyword; and the empty
keyword set vacuously satisfies "every keyword matches" yet scores 0. -/
theorem scoreJob_claim_cex :
    strIncludes (jsToLower "a") (jsToLower "A") = true
    ∧ (scoreJob "a" ["A"]).1 ≠ 100
    ∧ (scoreJob "a" ([] : List String)).1 ≠ 100 := by decide

/-- Claim C4, amended: for every keyword list and text the percentage is
in [0, 100]; the empty keyword set scores exactly (0, 0); if the keyword
set is nonempty and every keyword is a substring of the lower-cased text
(the containment test lower-cases the job text only), the percentage is
exactly 100; and the result is invariant under reordering of the keyword
set. -/
theorem scoreJob_bounds_and_match (T : String) (K K' : List String) :
    (scoreJob T K).1 ≤ 100
    ∧ scoreJob T [] = (0, 0)
    ∧ (K ≠ [] → (∀ k ∈ K, strIncludes (jsToLower T) k = true) → (scoreJob T K).1 = 100)
    ∧ (K.Perm K' → scoreJob T K = scoreJob T K') := by
  refine ⟨?_, rfl, ?_, ?_⟩
  · unfold scoreJob
    by_cases h : K.length = 0
    · simp [h]
    · rw [if_neg h]
      have hm : (K.filter (fun k => strIncludes (jsToLower T) k)).length ≤ K.length :=
        List.length_filter_le _ _
      have hn : 0 < K.length := Nat.pos_of_ne_zero h
      have hlt : 200 * (K.filter (fun k => strIncludes (jsToLower T) k)).length + K.length
          < 101 * (2 * K.length) := by omega
      exact Nat.lt_succ_iff.1 ((Nat.div_lt_iff_lt_mul (by omega)).2 (by omega))
  · intro hne hall
    unfold scoreJob
    have h : K.length ≠ 0 := fun hc => hne (List.length_eq_zero.1 hc)
    rw [if_neg h]
    have hfil : K.filter (fun k => strIncludes (jsToLower T) k) = K :=
      List.filter_eq_self.2 (fun a ha => by rw [hall a ha])
    have hn : 0 < K.length := Nat.pos_of_ne_zero h
    show (200 * (K.filter (fun k => strIncludes (jsToLower T) k)).length + K.length)
        / (2 * K.length) = 100
    rw [hfil]
    have h1 : 200 * K.length + K.length = 2 * K.length * 100 + K.length := by ring
    rw [h1, Nat.mul_add_div (by omega), Nat.div_eq_of_lt (by omega)]
  · intro hperm
    have hcnt : (K.filter (fun k => strIncludes (jsToLower T) k)).length
        = (K'.filter (fun k => strIncludes (jsToLower T) k)).length := by
      rw [← List.countP_eq_length_filter, ← List.countP_eq_length_filter]
      exact hperm.countP_eq _
    unfold scoreJob
    dsimp only
    rw [hperm.length_eq, hcnt]

/-- Claim C8: when the cache is cold and LLM keyword extraction fails in
any specified way — malformed/transport failure (`.error`) or an empty
keyword array — `getCvKeywords` returns the deterministic pattern
strategy's result `extractSmartKeywords` over the fetched resume text; the
failure is absorbed, never propagated. -/
theorem cvKeywords_ai_failure_fallback (env : CvEnv) (l k text : String)
    (hstale : env.cvKeywordsCache = none ∨ env.cvKeywordsUpdatedAt = none ∨
      (∀ t, env.cvKeywordsUpdatedAt = some t →
        CV_CACHE_HOURS * 3600 * 1000 ≤ env.now - t))
    (hlink : env.cvLink = some l)
    (hdoc : env.docFetch = Except.ok text)
    (hkey : env.apiKey = some k)
    (hfail : (∃ m, env.aiResponse = Except.error m) ∨ env.aiResponse = Except.ok []) :
    getCvKeywords env = extractSmartKeywords text := by
  have herr : ∃ m, aiExtractKeywords env.aiResponse = Except.error m := by
    rcases hfail with ⟨m, hm⟩ | hm
    · exact ⟨m, by rw [hm]; rfl⟩
    · exact ⟨"AI returned no keywords", by rw [hm]; rfl⟩
  have hfresh : getCvKeywordsFresh env = extractSmartKeywords text := by
    unfold getCvKeywordsFresh
    rw [hlink, hdoc, hkey]
    dsimp only
    rcases herr with ⟨m, hm⟩
    rw [hm]
  unfold getCvKeywords
  rcases hc : env.cvKeywordsCache with _ | kws
  · exact hfresh
  · rcases ht : env.cvKeywordsUpdatedAt with _ | t
    · exact hfresh
    · have hnot : ¬(env.now - t < CV_CACHE_HOURS * 3600 * 1000) := by
        rcases hstale with h | h | h
        · simp [hc] at h
        · simp [ht] at h
        · exact Int.not_lt.2 (h t ht)
      dsimp only
      rw [if_neg hnot]
      exact hfresh

theorem scrape_dedup_idempotent_witness :
    (wEnv.unguardedFailure = none ∧ (idsOf wStore.jobs).Nodup
      ∧ (idsOf (okJobsOf wEnv.boards)).Nodup)
    ∧ ((idsOf (scrapeAllJobs wStore wEnv).jobs).Nodup
      ∧ (∀ j ∈ wStore.jobs, ∀ j' ∈ (scrapeAllJobs wStore wEnv).jobs,
          j'.id = j.id → j'.first_seen_at = j.first_seen_at)
      ∧ (∀ j : Job, j ∈ newJobsOf wStore.jobs wEnv.boards ↔
          (j ∈ okJobsOf wEnv.boards ∧ j.id ∉ idsOf wStore.jobs))) :=
  ⟨⟨rfl, by decide, by decide⟩,
   scrape_dedup_idempotent wStore wEnv rfl (by decide) (by decide)⟩

theorem scrape_cap_and_order_witness :
    wEnv.unguardedFailure = none
    ∧ (((scrapeAllJobs wStore wEnv).jobs.length ≤ MAX_JOBS)
      ∧ (scrapeAllJobs wStore wEnv).jobs.Pairwise jobBefore
      ∧ ((scrapeAllJobs wStore wEnv).jobs = (sortedJobs wStore wEnv).take MAX_JOBS ∨
         (scrapeAllJobs wStore wEnv).jobs
           = ((sortedJobs wStore wEnv).take MAX_JOBS).map truncateDesc)
      ∧ (∀ a ∈ (scrapeAllJobs wStore wEnv).jobs,
          ∀ b ∈ (sortedJobs wStore wEnv).drop MAX_JOBS, jobBefore a b)
      ∧ (sortedJobs wStore wEnv).Perm (scoredJobs wStore wEnv)) :=
  ⟨rfl, scrape_cap_and_order wStore wEnv rfl⟩

theorem scrape_retention_witness :
    wEnv.unguardedFailure = none
    ∧ ((∀ j' ∈ (scrapeAllJobs wStore wEnv).jobs,
        ∃ ts, j'.first_seen_at = some ts ∧ cutoffOf wEnv.now < ts)
      ∧ (∀ j ∈ mergedJobs wStore.jobs wEnv.boards,
          j.first_seen_at = some (cutoffOf wEnv.now + 1000) → j ∈ prunedJobs wStore wEnv)) :=
  ⟨rfl, scrape_retention wStore wEnv rfl⟩

theorem prune_step_nan_and_exact_witness :
    (wJobNaN.first_seen_at = none ∧ pruneFilter 7 wJobNaN = false)
    ∧ (wJob1.first_seen_at = some 100 ∧ pruneFilter 100 wJob1 = false) :=
  ⟨⟨rfl, (prune_step_nan_and_exact wStore wEnv).1 7 wJobNaN rfl⟩,
   ⟨rfl, (prune_step_nan_and_exact wStore wEnv).2.1 100 wJob1 rfl⟩⟩

theorem scrape_ranking_fallback_witness :
    (wEnvAiErr.unguardedFailure = none
      ∧ wEnvAiErr.aiAttempt = some (Except.error "OpenAI HTTP 500"))
    ∧ ((scrapeAllJobs wStore wEnvAiErr).topJobs = defaultTopOf wStore wEnvAiErr
      ∧ (scrapeAllJobs wStore wEnvAiErr).jobsLastError = none) :=
  ⟨⟨rfl, rfl⟩,
   scrape_ranking_fallback wStore wEnvAiErr rfl (Or.inl ⟨"OpenAI HTTP 500", rfl⟩)⟩

theorem scrape_pipeline_error_preserves_witness :
    wEnvFail.unguardedFailure = some "storage write failed"
    ∧ ((scrapeAllJobs wStore wEnvFail).jobs = wStore.jobs
      ∧ (scrapeAllJobs wStore wEnvFail).topJobs = wStore.topJobs
      ∧ (scrapeAllJobs wStore wEnvFail).jobsLastUpdated = wStore.jobsLastUpdated
      ∧ (scrapeAllJobs wStore wEnvFail).jobsLastError = some "storage write failed") :=
  ⟨rfl, scrape_pipeline_error_preserves wStore wEnvFail "storage write failed" rfl⟩

theorem scrape_board_failure_isolated_witness :
    (scrapeAllJobs wStore
        { wEnv with boards :=
            [Except.ok [wJob1, wJob2]] ++ Except.error "Greenhouse acme: HTTP 500" :: [] }
      = scrapeAllJobs wStore { wEnv with boards := [Except.ok [wJob1, wJob2]] ++ [] })
    ∧ (scrapeAllJobs wStore
        { wEnv with boards :=
            [Except.ok [wJob1, wJob2]] ++ Except.error "Greenhouse acme: HTTP 500" :: [] }).jobsLastError
      = none :=
  ⟨(scrape_board_failure_isolated wStore wEnv "Greenhouse acme: HTTP 500"
      [Except.ok [wJob1, wJob2]] []).1,
   (scrape_board_failure_isolated wStore wEnv "Greenhouse acme: HTTP 500"
      [Except.ok [wJob1, wJob2]] []).2 rfl⟩

theorem cvKeywords_ai_failure_fallback_witness :
    (wCvEnv.cvKeywordsCache = none
      ∧ wCvEnv.cvLink = some "https://docs.google.com/document/d/x"
      ∧ wCvEnv.docFetch = Except.ok "Senior Python Engineer"
      ∧ wCvEnv.apiKey = some "sk-test"
      ∧ wCvEnv.aiResponse = Except.error "OpenAI HTTP 500")
    ∧ getCvKeywords wCvEnv = extractSmartKeywords "Senior Python Engineer" :=
  ⟨⟨rfl, rfl, rfl, rfl, rfl⟩,
   cvKeywords_ai_failure_fallback wCvEnv "https://docs.google.com/document/d/x" "sk-test"
     "Senior Python Engineer" (Or.inl rfl) rfl rfl rfl
     (Or.inl ⟨"OpenAI HTTP 500", rfl⟩)⟩

theorem scrape_topJobs_bounded_subset_witness :
    wEnv.unguardedFailure = none
    ∧ ((scrapeAllJobs wStore wEnv).topJobs.length ≤ 5
      ∧ ∀ e ∈ (scrapeAllJobs wStore wEnv).topJobs, ∀ j : Job,
          e = some j → j ∈ (scrapeAllJobs wStore wEnv).jobs) :=
  ⟨rfl, scrape_topJobs_bounded_subset wStore wEnv rfl⟩

theorem scoreJob_bounds_and_match_witness :
    (["python", "senior"] ≠ ([] : List String))
    ∧ (∀ k ∈ ["python", "senior"], strIncludes (jsToLower "Senior Python Dev") k = true)
    ∧ List.Perm ["python", "senior"] ["senior", "python"]
    ∧ (scoreJob "Senior Python Dev" ["python", "senior"]).1 = 100
    ∧ scoreJob "Senior Python Dev" ["python", "senior"]
        = scoreJob "Senior Python Dev" ["senior", "python"] :=
  ⟨by decide, by decide, by decide,
   (scoreJob_bounds_and_match "Senior Python Dev" ["python", "senior"]
     ["senior", "python"]).2.2.1 (by decide) (by decide),
   (scoreJob_bounds_and_match "Senior Python Dev" ["python", "senior"]
     ["senior", "python"]).2.2.2 (by decide)⟩

end JobAgent
